import Mathlib

/-!
# Verification of the cardiac heartbeat protocol

A shallow embedding of the `cardiac` process-liveness monitor:

* the wire codec — `HeartbeatClient._sign_packet` (src/client.py) on the
  encoding side and `HeartbeatServer._unpack` (src/heartbeat_server.py) on
  the decoding side;
* the liveness table and its mutators `_heartbeat`, `_register`,
  `_deregister`, the dispatch boundary `handle_request`, and the staleness
  scan `request_hook` (src/heartbeat_server.py);
* the identifier validation `_validate_id` and constructor defaulting, and
  the send/sleep schedule of `HeartbeatClient.run` (src/client.py).

Modelling conventions:

* Bytes are `Nat` (each source byte is `< 256`); a Python `bytes`/`bytearray`
  value is a `List Nat`.
* The packet timestamp is a 64-bit IEEE-754 double on the wire.  The codec
  never performs arithmetic on it: `struct.pack(">d", t)` writes, and
  `struct.unpack(">d", b)` reads back, the same 8-byte big-endian bit
  pattern.  We therefore model a timestamp by that bit pattern, a
  `Nat < 2^64`; equality of bit patterns is exactly the notion of a
  round-tripped value.
* The liveness table timestamps used by the staleness scan are compared and
  subtracted as real numbers; they are modelled as `ℚ`, an ordered field
  abstraction of the float values.
* Python exceptions become an `Except PyErr` result; the dynamic dict is an
  association list with unique keys (Python dicts keep insertion order: an
  assignment to a present key updates in place, a new key is appended).
-/

namespace Cardiac

/-- Python exception classes that the embedded code can raise:
`IndexError` (out-of-range index), `struct.error` (bad buffer size for
`struct.unpack` / out-of-range value for `struct.pack`), `ValueError`
(raised by `HeartbeatClient._validate_id`), and `UnicodeDecodeError` (a
`ValueError` subclass, raised by `ident_bytes.decode('UTF-8')` in
`HeartbeatServer._unpack` when the identifier field is not valid UTF-8).
`KeyError` never appears in a result because the only raise site
(`_deregister` on a missing pid) is modelled by an `Option` and caught
inside `handle_request`. -/
inductive PyErr where
  | indexError
  | structError
  | valueError
  | unicodeDecodeError
  deriving DecidableEq, Repr

/-- `FREQ_DEF` from src/client.py: the default heartbeat rate, 5 seconds. -/
def FREQ_DEF : Nat := 5

/-- Big-endian encoding of the low `w` bytes of `n`, as produced by
`struct.pack` with a big-endian format of width `w`. -/
def pack_be : Nat → Nat → List Nat
  | 0, _ => []
  | w + 1, n => pack_be w (n / 256) ++ [n % 256]

/-- The value of a big-endian byte string, as read by `struct.unpack`. -/
def unpack_be (l : List Nat) : Nat :=
  l.foldl (fun acc b => acc * 256 + b) 0

/-- The unsigned 32-bit representation of a signed integer, as written by
`struct.pack(">i", pid)` (two's complement). -/
def toU32 (pid : Int) : Nat := (pid % (2 ^ 32 : Int)).toNat

/-- The signed reading of an unsigned 32-bit value, as returned by
`struct.unpack(">i", b)` (two's complement). -/
def toS32 (n : Nat) : Int :=
  if n < 2 ^ 31 then (n : Int) else (n : Int) - 2 ^ 32

/-- Python slice assignment `packet[s : s + r.length] = r` on a bytearray,
for a replacement of the same length as the replaced range. -/
def setSlice (l : List Nat) (s : Nat) (r : List Nat) : List Nat :=
  l.take s ++ r ++ l.drop (s + r.length)

/-- Python slice read `packet[a:b]`. -/
def pyslice (l : List Nat) (a b : Nat) : List Nat :=
  (l.take b).drop a

/-- `struct.pack("12s", b)`: a fixed 12-byte field, truncating a longer
input and null-padding a shorter one. -/
def pack12s (b : List Nat) : List Nat :=
  b.take 12 ++ List.replicate (12 - b.length) 0

/-- `s.rstrip("\x00")` on the decoded identifier, at the byte level: NUL is
the single-byte UTF-8 character 0, so stripping trailing NUL characters
drops the trailing 0 bytes. -/
def rstripZeros (l : List Nat) : List Nat :=
  (l.reverse.dropWhile (fun b => b == 0)).reverse

/-- The lead-byte table of RFC 3629 UTF-8, as enforced by Python's strict
`bytes.decode('UTF-8')`: for a lead byte, the number of continuation
bytes and the allowed range of the first continuation (later continuations
are always 128-191); `none` for an invalid lead byte (128-193 are bare
continuations or overlong leads C0/C1, 245-255 are beyond U+10FFFF).  The
narrowed first-continuation ranges reject overlong forms (E0: A0-BF,
F0: 90-BF), surrogates (ED: 80-9F) and code points above U+10FFFF
(F4: 80-8F). -/
def leadClass (b : Nat) : Option (Nat × Nat × Nat) :=
  if b ≤ 127 then some (0, 0, 0)
  else if 194 ≤ b && b ≤ 223 then some (1, 128, 191)
  else if b = 224 then some (2, 160, 191)
  else if 225 ≤ b && b ≤ 236 then some (2, 128, 191)
  else if b = 237 then some (2, 128, 159)
  else if 238 ≤ b && b ≤ 239 then some (2, 128, 191)
  else if b = 240 then some (3, 144, 191)
  else if 241 ≤ b && b ≤ 243 then some (3, 128, 191)
  else if b = 244 then some (3, 128, 143)
  else none

/-- One step of the strict UTF-8 acceptor: the state is `none` after an
error, or `some (n, lo, hi)`: `n` continuation bytes still expected, the
next one in `[lo, hi]`.  At a character boundary (`n = 0`) the byte must
be a lead byte; inside a character it must be a continuation in range. -/
def utf8Next (s : Option (Nat × Nat × Nat)) (b : Nat) : Option (Nat × Nat × Nat) :=
  match s with
  | none => none
  | some (0, _, _) => leadClass b
  | some (n + 1, lo, hi) => if lo ≤ b && b ≤ hi then some (n, 128, 191) else none

/-- The acceptor accepts exactly at a character boundary: an error or a
truncated final character rejects. -/
def utf8Accept : Option (Nat × Nat × Nat) → Bool
  | some (0, _, _) => true
  | _ => false

/-- Whether `bytes.decode('UTF-8')` succeeds on the byte string under
Python's strict (default) error handling. -/
def validUTF8 (l : List Nat) : Bool :=
  utf8Accept (l.foldl utf8Next (some (0, 0, 0)))

/-- `HeartbeatClient._sign_packet` (src/client.py), with the state the
method reads (`time.time()`, `self.__pid`, `self.id.encode("UTF-8")`)
passed explicitly: allocate a zeroed bytearray of 26 bytes for Register
(`type_ == 2`) and 14 bytes otherwise, then write the type byte at offset
1, the 8 timestamp bytes at offset 2, the 4 pid bytes at offset 10, and,
for Register only, the 12-byte null-padded identifier field at offset 14.
`ts` is the timestamp's 64-bit bit pattern and `ident` the identifier's
UTF-8 bytes. -/
def sign_packet (t : Nat) (ts : Nat) (pid : Int) (ident : List Nat) : List Nat :=
  let packet := List.replicate (if t = 2 then 26 else 14) 0
  let packet := setSlice packet 1 [t]
  let packet := setSlice packet 2 (pack_be 8 ts)
  let packet := setSlice packet 10 (pack_be 4 (toU32 pid))
  if t = 2 then setSlice packet 14 (pack12s ident) else packet

/-- `HeartbeatServer._unpack` (src/heartbeat_server.py): read
`packet[1]` as the type (an `IndexError` if the buffer is shorter than 2),
`struct.unpack(">d", packet[2:10])` as the timestamp and
`struct.unpack(">i", packet[10:14])` as the pid (a `struct.error` when the
slice is not exactly 8 resp. 4 bytes long), and, when the type byte is 2,
`struct.unpack("12s", packet[14:26])` decoded via `.decode('UTF-8')` (a
`UnicodeDecodeError` when the field is not valid UTF-8) and right-stripped
of NULs as the identifier; otherwise the identifier is `None`.  Returns
`(type, pid, timestamp, identifier)` in the source's order. -/
def unpack (packet : List Nat) :
    Except PyErr (Nat × Int × Nat × Option (List Nat)) :=
  match packet.get? 1 with
  | none => .error .indexError
  | some t =>
    if (pyslice packet 2 10).length = 8 then
      if (pyslice packet 10 14).length = 4 then
        let ts := unpack_be (pyslice packet 2 10)
        let pid := toS32 (unpack_be (pyslice packet 10 14))
        if t = 2 then
          if (pyslice packet 14 26).length = 12 then
            if validUTF8 (pyslice packet 14 26) then
              .ok (t, pid, ts, some (rstripZeros (pyslice packet 14 26)))
            else .error .unicodeDecodeError
          else .error .structError
        else .ok (t, pid, ts, none)
      else .error .structError
    else .error .structError

/-- One value of the `self.clients` dict of `HeartbeatServer`:
`{"process_name": ..., "last_heartbeat": ...}`.  `process_name` is the
decoded identifier (`None` or a byte string); the timestamp type `τ` is
`Nat` (a bit pattern) on the dispatch path and `ℚ` where the staleness scan
does arithmetic on it. -/
structure Entry (τ : Type) where
  process_name : Option (List Nat)
  last_heartbeat : τ
  deriving DecidableEq, Repr

/-- The liveness table `self.clients`: a Python dict from pid to entry, in
insertion order. -/
abbrev Clients (τ : Type) : Type := List (Int × Entry τ)

/-- Dict read `d[k]` / `k in d`, as an `Option`. -/
def dictGet {α : Type} (k : Int) : List (Int × α) → Option α
  | [] => none
  | (k', v) :: rest => if k' = k then some v else dictGet k rest

/-- Dict write `d[k] = v`: update in place when the key is present,
append when it is new (Python dicts keep insertion order). -/
def dictSet {α : Type} (k : Int) (v : α) : List (Int × α) → List (Int × α)
  | [] => [(k, v)]
  | (k', v') :: rest =>
    if k' = k then (k, v) :: rest else (k', v') :: dictSet k v rest

/-- Dict delete `del d[k]` (the key is present in every use). -/
def dictDel {α : Type} (k : Int) : List (Int × α) → List (Int × α)
  | [] => []
  | (k', v') :: rest => if k' = k then rest else (k', v') :: dictDel k rest

/-- The dict invariant: each pid keys at most one entry. -/
def keysNodup {α : Type} (d : List (Int × α)) : Prop :=
  (d.map Prod.fst).Nodup

/-- `HeartbeatServer._heartbeat`: if the pid is present, assign only
`last_heartbeat` (keeping the stored `process_name`); otherwise insert a
fresh entry with the passed `process_name` (which is `None` when reached
from a heartbeat packet) and the packet timestamp. -/
def heartbeat_op {τ : Type} (clients : Clients τ) (pid : Int) (ts : τ)
    (pname : Option (List Nat)) : Clients τ :=
  match dictGet pid clients with
  | some e => dictSet pid ⟨e.process_name, ts⟩ clients
  | none => dictSet pid ⟨pname, ts⟩ clients

/-- `HeartbeatServer._register`: unconditionally assign
`clients[pid] = {"process_name": pname, "last_heartbeat": ts}`. -/
def register_op {τ : Type} (clients : Clients τ) (pid : Int) (ts : τ)
    (pname : Option (List Nat)) : Clients τ :=
  dictSet pid ⟨pname, ts⟩ clients

/-- `HeartbeatServer._deregister`: read `clients[pid]["process_name"]`
(which raises `KeyError` when the pid is absent — modelled as `none`),
then `del clients[pid]`. -/
def deregister_op {τ : Type} (clients : Clients τ) (pid : Int) :
    Option (Clients τ) :=
  match dictGet pid clients with
  | some _ => some (dictDel pid clients)
  | none => none

/-- `HeartbeatServer.handle_request` applied to the data half of the
request (the sender address is unused by the source): `_unpack` the
buffer, then `match` on the type byte, dispatching 1 to `_heartbeat`, 2 to
`_register`, 3 to `_deregister` and ignoring any other value (the source
`match` has no default case).  The surrounding `try` catches only
`KeyError` — the one `_deregister` raises on a missing pid — logging and
leaving the table unchanged; `IndexError` and `struct.error` from
`_unpack` propagate out of `handle_request`. -/
def handle_request (clients : Clients Nat) (data : List Nat) :
    Except PyErr (Clients Nat) :=
  match unpack data with
  | .error e => .error e
  | .ok (t, pid, ts, ident) =>
    if t = 1 then .ok (heartbeat_op clients pid ts ident)
    else if t = 2 then .ok (register_op clients pid ts ident)
    else if t = 3 then
      match deregister_op clients pid with
      | some clients' => .ok clients'
      | none => .ok clients
    else .ok clients

/-- `HBT_DEF` from src/heartbeat_server.py: the staleness window, 10, used
by the scan as a number subtracted from the current time. -/
def HBT_DEF : ℚ := 10

/-- `HeartbeatServer.request_hook`, as the list of pids passed to
`notify`: with `threshold = currtime - HBT_DEF`, walk a snapshot of the
table in order and notify every entry whose `last_heartbeat` is strictly
below the threshold. -/
def request_hook_notifies (currtime : ℚ) : Clients ℚ → List Int
  | [] => []
  | (pid, e) :: rest =>
    if e.last_heartbeat < currtime - HBT_DEF then
      pid :: request_hook_notifies currtime rest
    else request_hook_notifies currtime rest

/-- One observable action of `HeartbeatClient.run`: sending a packet of a
given type, or sleeping for a number of seconds. -/
inductive ClientEvent where
  | send (ptype : Nat)
  | sleep (secs : Nat)
  deriving DecidableEq, Repr

/-- The send/sleep schedule of `HeartbeatClient.run` (src/client.py) over
`iters` iterations of its `while not self._shutdown` loop: after
connecting, `if self.id: self.register()` sends one Register packet, and
each loop iteration sends one Heartbeat packet and then calls
`time.sleep(FREQ_DEF)` — the literal module constant, not `self.rate`,
which `run` never reads.  `rate` is the constructor argument stored in
`self.rate`; `idTruthy` is the truthiness of `self.id`. -/
def run_events (idTruthy : Bool) (rate : Nat) (iters : Nat) : List ClientEvent :=
  let _ := rate
  (if idTruthy then [ClientEvent.send 2] else []) ++ loopEvents iters
where
  /-- The heartbeat/sleep pairs of the loop body. -/
  loopEvents : Nat → List ClientEvent
    | 0 => []
    | n + 1 => ClientEvent.send 1 :: ClientEvent.sleep FREQ_DEF :: loopEvents n

/-- An identifier string as the client sees it: a list of characters, each
carried as its (nonempty) UTF-8 byte sequence.  Python's `len(id)` is the
character count `ident.length`; `id.encode("UTF-8")` is the flattened byte
string. -/
abbrev Ident : Type := List (List Nat)

/-- `id.encode("UTF-8")`. -/
def utf8Bytes (ident : Ident) : List Nat := ident.flatten

/-- `HeartbeatClient._validate_id`: return `True` when `len(id) <= 12`
(a character count), otherwise raise
`ValueError("id exceeds 12 character limit.")`. -/
def validate_id (ident : Ident) : Except PyErr Bool :=
  if ident.length ≤ 12 then .ok true else .error .valueError

/-- The identifier `str(self.__pid)` used when no truthy id is supplied:
the decimal rendering of the pid, one single-byte character per digit. -/
def decimalId (pid : Int) : Ident :=
  (toString pid).toList.map (fun c => [c.toNat])

/-- The identifier logic of `HeartbeatClient.__init__`: `if id:
self._validate_id(id) else: id = str(self.__pid)` — a supplied non-empty
identifier is validated (propagating the `ValueError`), while `None` or an
empty identifier is silently replaced by the stringified pid. -/
def init_id (id : Option Ident) (pid : Int) : Except PyErr Ident :=
  match id with
  | some ident =>
    if ident.isEmpty then .ok (decimalId pid)
    else
      match validate_id ident with
      | .ok _ => .ok ident
      | .error e => .error e
  | none => .ok (decimalId pid)

/-! ## Codec lemmas -/

theorem pack_be_length (w n : Nat) : (pack_be w n).length = w := by
  induction w generalizing n with
  | zero => rfl
  | succ w ih => simp [pack_be, ih]

theorem foldl_pack_be (w n acc : Nat) :
    (pack_be w n).foldl (fun a b => a * 256 + b) acc = acc * 256 ^ w + n % 256 ^ w := by
  induction w generalizing n acc with
  | zero => simp [pack_be, Nat.mod_one]
  | succ w ih =>
    have hmul : n % 256 ^ (w + 1) = n % 256 + 256 * (n / 256 % 256 ^ w) := by
      rw [pow_succ, mul_comm (256 ^ w) 256, Nat.mod_mul]
    simp only [pack_be, List.foldl_append, List.foldl_cons, List.foldl_nil, ih]
    rw [hmul, pow_succ]
    ring

theorem unpack_be_pack_be (w n : Nat) (h : n < 256 ^ w) :
    unpack_be (pack_be w n) = n := by
  unfold unpack_be
  rw [foldl_pack_be, Nat.zero_mul, Nat.zero_add, Nat.mod_eq_of_lt h]

theorem toU32_lt (pid : Int) : toU32 pid < 2 ^ 32 := by
  unfold toU32
  omega

theorem toS32_toU32 (pid : Int) (h1 : -2 ^ 31 ≤ pid) (h2 : pid < 2 ^ 31) :
    toS32 (toU32 pid) = pid := by
  unfold toS32 toU32
  split <;> omega

theorem pack12s_length (b : List Nat) : (pack12s b).length = 12 := by
  simp [pack12s]
  omega

/-- The acceptor behaves the same from every boundary state: which bytes
were consumed to reach the boundary does not matter. -/
theorem utf8_boundary_start (ys : List Nat) (a b : Nat) :
    utf8Accept (ys.foldl utf8Next (some (0, a, b))) =
      utf8Accept (ys.foldl utf8Next (some (0, 0, 0))) := by
  cases ys with
  | nil => rfl
  | cons y ys' => simp [List.foldl_cons, utf8Next]

/-- The concatenation of two valid UTF-8 byte strings is valid. -/
theorem validUTF8_append (xs ys : List Nat) (hx : validUTF8 xs = true)
    (hy : validUTF8 ys = true) : validUTF8 (xs ++ ys) = true := by
  unfold validUTF8 at hx hy ⊢
  rw [List.foldl_append]
  rcases hs : xs.foldl utf8Next (some (0, 0, 0)) with - | ⟨n, a, b⟩
  · rw [hs] at hx
    simp [utf8Accept] at hx
  · rw [hs] at hx
    cases n with
    | succ n => simp [utf8Accept] at hx
    | zero =>
      rw [utf8_boundary_start]
      exact hy

/-- NUL padding is valid UTF-8 (NUL is the single-byte character 0). -/
theorem validUTF8_replicate_zero (k : Nat) :
    validUTF8 (List.replicate k 0) = true := by
  unfold validUTF8
  induction k with
  | zero => rfl
  | succ k ih =>
    rw [List.replicate_succ, List.foldl_cons]
    simpa [utf8Next, leadClass] using ih

/-- The encoder's NUL-padded identifier field is valid UTF-8 whenever
the identifier bytes are. -/
theorem validUTF8_pack12s (b : List Nat) (hlen : b.length ≤ 12)
    (hvu : validUTF8 b = true) : validUTF8 (pack12s b) = true := by
  unfold pack12s
  rw [List.take_of_length_le hlen]
  exact validUTF8_append _ _ hvu (validUTF8_replicate_zero _)

theorem setSlice_cons (x : Nat) (l r : List Nat) (s s' : Nat) (hs : s = s' + 1) :
    setSlice (x :: l) s r = x :: setSlice l s' r := by
  subst hs
  show (x :: l).take (s' + 1) ++ r ++ (x :: l).drop (s' + 1 + r.length) = _
  rw [List.take_succ_cons, (by omega : s' + 1 + r.length = (s' + r.length) + 1),
    List.drop_succ_cons]
  simp [setSlice]

theorem setSlice_zero (v w r : List Nat) (hv : r.length = v.length) :
    setSlice (v ++ w) 0 r = r ++ w := by
  simp only [setSlice, List.take_zero, Nat.zero_add, List.nil_append, hv,
    List.drop_left]

theorem setSlice_append_left (v w r : List Nat) (s s' : Nat)
    (hs : s = v.length + s') :
    setSlice (v ++ w) s r = v ++ setSlice w s' r := by
  subst hs
  simp only [setSlice, List.take_append, Nat.add_assoc, List.drop_append,
    List.append_assoc]

/-- The encoder in closed form: byte 0 is left at 0, byte 1 is the type,
then the 8 timestamp bytes, the 4 pid bytes, and (Register only) the
12-byte identifier field. -/
theorem sign_packet_shape (t ts : Nat) (pid : Int) (ident : List Nat) :
    sign_packet t ts pid ident =
      if t = 2 then
        0 :: t :: (pack_be 8 ts ++ (pack_be 4 (toU32 pid) ++ pack12s ident))
      else
        0 :: t :: (pack_be 8 ts ++ pack_be 4 (toU32 pid)) := by
  by_cases h : t = 2 <;> simp only [sign_packet, h, if_true, if_false, reduceIte]
  · rw [(by decide : List.replicate 26 (0 : Nat) =
        [0] ++ ([0] ++ (List.replicate 8 0 ++
          (List.replicate 4 0 ++ (List.replicate 12 0 ++ []))))),
      setSlice_append_left [0] _ _ 1 0 rfl,
      setSlice_zero [0] _ _ (by rfl),
      setSlice_append_left [0] _ _ 2 1 rfl,
      setSlice_append_left [2] _ _ 1 0 rfl,
      setSlice_zero _ _ _ (by simp [pack_be_length]),
      setSlice_append_left [0] _ _ 10 9 rfl,
      setSlice_append_left [2] _ _ 9 8 rfl,
      setSlice_append_left (pack_be 8 ts) _ _ 8 0 (by simp [pack_be_length]),
      setSlice_zero _ _ _ (by simp [pack_be_length]),
      setSlice_append_left [0] _ _ 14 13 rfl,
      setSlice_append_left [2] _ _ 13 12 rfl,
      setSlice_append_left (pack_be 8 ts) _ _ 12 4 (by simp [pack_be_length]),
      setSlice_append_left (pack_be 4 (toU32 pid)) _ _ 4 0 (by simp [pack_be_length]),
      setSlice_zero _ _ _ (by simp [pack12s_length])]
    simp
  · rw [(by decide : List.replicate 14 (0 : Nat) =
        [0] ++ ([0] ++ (List.replicate 8 0 ++ (List.replicate 4 0 ++ [])))),
      setSlice_append_left [0] _ _ 1 0 rfl,
      setSlice_zero [0] _ _ (by rfl),
      setSlice_append_left [0] _ _ 2 1 rfl,
      setSlice_append_left [t] _ _ 1 0 rfl,
      setSlice_zero _ _ _ (by simp [pack_be_length]),
      setSlice_append_left [0] _ _ 10 9 rfl,
      setSlice_append_left [t] _ _ 9 8 rfl,
      setSlice_append_left (pack_be 8 ts) _ _ 8 0 (by simp [pack_be_length]),
      setSlice_zero _ _ _ (by simp [pack_be_length])]
    simp

theorem pyslice_append_exact (u v w : List Nat) (a b : Nat)
    (ha : u.length = a) (hb : a + v.length = b) :
    pyslice (u ++ (v ++ w)) a b = v := by
  subst ha
  subst hb
  unfold pyslice
  rw [← List.append_assoc, ← List.length_append u v, List.take_left,
    List.drop_left]

theorem pyslice_length (l : List Nat) (a b : Nat) :
    (pyslice l a b).length = min b l.length - a := by
  simp [pyslice]

theorem dropWhile_replicate_zero (k : Nat) (l : List Nat) :
    (List.replicate k 0 ++ l).dropWhile (fun b => b == 0) =
      l.dropWhile (fun b => b == 0) := by
  induction k with
  | zero => rfl
  | succ k ih => simp [List.replicate_succ, List.dropWhile, ih]

theorem rstripZeros_append_replicate (b : List Nat) (k : Nat)
    (hlast : b.getLast? ≠ some 0) :
    rstripZeros (b ++ List.replicate k 0) = b := by
  unfold rstripZeros
  rw [List.reverse_append, List.reverse_replicate, dropWhile_replicate_zero]
  cases hb : b.reverse with
  | nil =>
    have : b = [] := by simpa using congrArg List.reverse hb
    simp [this]
  | cons x xs =>
    have hx : x ≠ 0 := by
      intro hx0
      apply hlast
      rw [← List.head?_reverse, hb, hx0]
      rfl
    rw [List.dropWhile_cons, if_neg (by simp [hx]), ← hb, List.reverse_reverse]

theorem rstripZeros_pack12s (b : List Nat) (hlen : b.length ≤ 12)
    (hlast : b.getLast? ≠ some 0) :
    rstripZeros (pack12s b) = b := by
  unfold pack12s
  rw [List.take_of_length_le hlen, rstripZeros_append_replicate b _ hlast]

/-- Decoding a buffer of the encoder's shape: the type byte is read back
from offset 1, the timestamp from the 8 bytes at offset 2, the pid from
the 4 bytes at offset 10, and, for type 2, the identifier from the
NUL-stripped 12 bytes at offset 14. -/
theorem pyslice_append_suffix (u v : List Nat) (a b : Nat)
    (ha : u.length = a) (hb : a + v.length = b) :
    pyslice (u ++ v) a b = v := by
  have h := pyslice_append_exact u v [] a b ha hb
  rwa [List.append_nil] at h

theorem unpack_frame (t : Nat) (T8 P4 rest : List Nat)
    (h8 : T8.length = 8) (h4 : P4.length = 4) (ht2 : t = 2 → rest.length = 12)
    (hvu : t = 2 → validUTF8 rest = true) :
    unpack (0 :: t :: (T8 ++ (P4 ++ rest))) =
      if t = 2 then
        .ok (t, toS32 (unpack_be P4), unpack_be T8, some (rstripZeros rest))
      else
        .ok (t, toS32 (unpack_be P4), unpack_be T8, none) := by
  have e1 : pyslice (0 :: t :: (T8 ++ (P4 ++ rest))) 2 10 = T8 := by
    show pyslice ([0, t] ++ (T8 ++ (P4 ++ rest))) 2 10 = T8
    exact pyslice_append_exact _ _ _ _ _ rfl (by rw [h8])
  have e2 : pyslice (0 :: t :: (T8 ++ (P4 ++ rest))) 10 14 = P4 := by
    show pyslice ([0, t] ++ (T8 ++ (P4 ++ rest))) 10 14 = P4
    rw [← List.append_assoc [0, t] T8 (P4 ++ rest)]
    exact pyslice_append_exact _ _ _ _ _ (by simp [h8]) (by rw [h4])
  unfold unpack
  simp only [List.get?_cons_succ, List.get?_cons_zero]
  rw [e1, e2, h8, h4]
  simp only [if_true, reduceIte]
  by_cases h2 : t = 2
  · have h12 := ht2 h2
    have e3 : pyslice (0 :: t :: (T8 ++ (P4 ++ rest))) 14 26 = rest := by
      show pyslice ([0, t] ++ (T8 ++ (P4 ++ rest))) 14 26 = rest
      rw [← List.append_assoc [0, t] T8 (P4 ++ rest),
        ← List.append_assoc ([0, t] ++ T8) P4 rest]
      exact pyslice_append_suffix _ _ _ _ (by simp [h8, h4]) (by omega)
    rw [e3]
    simp [h2, h12, hvu h2]
  · simp [h2]

/-! ## Dictionary lemmas -/

instance {α : Type} (d : List (Int × α)) : Decidable (keysNodup d) := by
  unfold keysNodup
  infer_instance

theorem dictGet_dictSet_self {α : Type} (k : Int) (v : α) (d : List (Int × α)) :
    dictGet k (dictSet k v d) = some v := by
  induction d with
  | nil => simp [dictGet, dictSet]
  | cons p rest ih =>
    obtain ⟨k', v'⟩ := p
    by_cases h : k' = k <;> simp [dictGet, dictSet, h, ih]

theorem dictGet_dictSet_ne {α : Type} (k q : Int) (v : α) (d : List (Int × α))
    (h : q ≠ k) : dictGet q (dictSet k v d) = dictGet q d := by
  induction d with
  | nil => simp [dictGet, dictSet, Ne.symm h]
  | cons p rest ih =>
    obtain ⟨k', v'⟩ := p
    by_cases hk : k' = k
    · subst hk
      simp [dictGet, dictSet, Ne.symm h]
    · by_cases hq : k' = q
      · subst hq
        simp [dictGet, dictSet, hk]
      · simp [dictGet, dictSet, hk, hq, ih]

theorem dictGet_dictDel_ne {α : Type} (k q : Int) (d : List (Int × α))
    (h : q ≠ k) : dictGet q (dictDel k d) = dictGet q d := by
  induction d with
  | nil => simp [dictDel]
  | cons p rest ih =>
    obtain ⟨k', v'⟩ := p
    by_cases hk : k' = k
    · subst hk
      simp [dictGet, dictDel, Ne.symm h]
    · by_cases hq : k' = q
      · subst hq
        simp [dictGet, dictDel, hk]
      · simp [dictGet, dictDel, hk, hq, ih]

theorem dictGet_of_not_mem {α : Type} (k : Int) (d : List (Int × α))
    (h : k ∉ d.map Prod.fst) : dictGet k d = none := by
  induction d with
  | nil => rfl
  | cons p rest ih =>
    obtain ⟨k', v'⟩ := p
    simp only [List.map_cons, List.mem_cons] at h
    push_neg at h
    simp [dictGet, Ne.symm h.1, ih h.2]

theorem dictGet_dictDel_self {α : Type} (k : Int) (d : List (Int × α))
    (h : keysNodup d) : dictGet k (dictDel k d) = none := by
  induction d with
  | nil => rfl
  | cons p rest ih =>
    obtain ⟨k', v'⟩ := p
    unfold keysNodup at h
    simp only [List.map_cons, List.nodup_cons] at h
    by_cases hk : k' = k
    · subst hk
      simpa [dictDel] using dictGet_of_not_mem _ _ h.1
    · simp only [dictDel, hk, if_false, reduceIte]
      simp [dictGet, hk, ih h.2]

/-! ## Decode success characterization and inversion -/

theorem unpack_ok_iff (data : List Nat) :
    (∃ r, unpack data = .ok r) ↔
      (14 ≤ data.length ∧ (data.get? 1 = some 2 →
        26 ≤ data.length ∧ validUTF8 (pyslice data 14 26) = true)) := by
  unfold unpack
  cases hg : data.get? 1 with
  | none =>
    have hlen : data.length ≤ 1 := List.get?_eq_none.mp hg
    simp only [hg]
    constructor
    · rintro ⟨r, hr⟩
      cases hr
    · rintro ⟨h14, -⟩
      omega
  | some t =>
    have h1 : ¬data.length ≤ 1 := by
      intro hle
      rw [List.get?_eq_none.mpr hle] at hg
      cases hg
    simp only [hg, Option.some.injEq, pyslice_length]
    by_cases h8 : min 10 data.length - 2 = 8
    · simp only [h8, if_true, reduceIte]
      by_cases h4 : min 14 data.length - 10 = 4
      · simp only [h4, if_true, reduceIte]
        by_cases ht : t = 2
        · subst ht
          by_cases h12 : min 26 data.length - 14 = 12
          · simp only [h12, if_true, reduceIte]
            by_cases hvu : validUTF8 (pyslice data 14 26) = true
            · rw [if_pos hvu]
              constructor
              · intro
                exact ⟨by omega, fun _ => ⟨by omega, hvu⟩⟩
              · intro
                exact ⟨_, rfl⟩
            · rw [if_neg hvu]
              constructor
              · rintro ⟨r, hr⟩
                cases hr
              · rintro ⟨h14, h26⟩
                exact absurd (h26 (by trivial)).2 hvu
          · simp only [h12, if_false, reduceIte]
            constructor
            · rintro ⟨r, hr⟩
              cases hr
            · rintro ⟨h14, h26⟩
              obtain ⟨h26a, -⟩ := h26 (by trivial)
              omega
        · simp only [ht, if_false, reduceIte]
          constructor
          · intro
            constructor
            · omega
            · intro he
              simp [ht] at he
          · intro
            exact ⟨_, rfl⟩
      · simp only [h4, if_false, reduceIte]
        constructor
        · rintro ⟨r, hr⟩
          cases hr
        · rintro ⟨h14, -⟩
          omega
    · simp only [h8, if_false, reduceIte]
      constructor
      · rintro ⟨r, hr⟩
        cases hr
      · rintro ⟨h14, -⟩
        omega

theorem handle_request_ok_of_unpack (clients : Clients Nat) (data : List Nat)
    (t : Nat) (pid : Int) (ts : Nat) (ident : Option (List Nat))
    (h : unpack data = .ok (t, pid, ts, ident)) :
    ∃ r, handle_request clients data = .ok r := by
  unfold handle_request
  rw [h]
  by_cases h1 : t = 1
  · simp [h1]
  · by_cases h2 : t = 2
    · simp [h1, h2]
    · by_cases h3 : t = 3
      · simp only [h1, h2, h3, if_false, if_true, reduceIte]
        cases deregister_op clients pid with
        | some c => exact ⟨c, rfl⟩
        | none => exact ⟨clients, rfl⟩
      · simp [h1, h2, h3]

theorem handle_request_error_of_unpack (clients : Clients Nat)
    (data : List Nat) (e : PyErr) (h : unpack data = .error e) :
    handle_request clients data = .error e := by
  unfold handle_request
  rw [h]

/-- A decoded packet whose type byte is not 2 carries no identifier. -/
theorem unpack_ident_none (data : List Nat) (t : Nat) (pid : Int) (ts : Nat)
    (ident : Option (List Nat)) (h : unpack data = .ok (t, pid, ts, ident))
    (ht : t ≠ 2) : ident = none := by
  unfold unpack at h
  split at h
  · cases h
  · split_ifs at h with h8 h4 ht' h12
    all_goals try (cases h
                   exact absurd ht' ht)
    all_goals try cases h
    all_goals rfl

theorem length_le_flatten (l : List (List Nat)) (h : ∀ c ∈ l, c ≠ []) :
    l.length ≤ l.flatten.length := by
  induction l with
  | nil => simp
  | cons c cs ih =>
    have hc : c ≠ [] := h c (by simp)
    have hc1 : 1 ≤ c.length := by
      cases c with
      | nil => exact absurd rfl hc
      | cons x xs => simp
    have := ih (fun d hd => h d (by simp [hd]))
    simp only [List.flatten_cons, List.length_cons, List.length_append]
    omega

/-- A valid wire identifier: the UTF-8 byte string of a 1-12 character
label — so 1-12 bytes of valid UTF-8 — which must not end in a NUL byte
(the wire field is NUL-padded and decoding strips all trailing NULs, so a
label ending in NUL is not representable). -/
def validIdent (b : List Nat) : Prop :=
  1 ≤ b.length ∧ b.length ≤ 12 ∧ b.getLast? ≠ some 0 ∧
    (∀ x ∈ b, x < 256) ∧ validUTF8 b = true

instance (b : List Nat) : Decidable (validIdent b) := by
  unfold validIdent
  infer_instance

/-! ## Frame slice lemmas -/

theorem frame_slice_ts (t : Nat) (T8 X : List Nat) (h8 : T8.length = 8) :
    pyslice (0 :: t :: (T8 ++ X)) 2 10 = T8 := by
  show pyslice ([0, t] ++ (T8 ++ X)) 2 10 = T8
  exact pyslice_append_exact _ _ _ _ _ rfl (by rw [h8])

theorem frame_slice_pid (t : Nat) (T8 P4 X : List Nat) (h8 : T8.length = 8)
    (h4 : P4.length = 4) :
    pyslice (0 :: t :: (T8 ++ (P4 ++ X))) 10 14 = P4 := by
  show pyslice ([0, t] ++ (T8 ++ (P4 ++ X))) 10 14 = P4
  rw [← List.append_assoc [0, t] T8 (P4 ++ X)]
  exact pyslice_append_exact _ _ _ _ _ (by simp [h8]) (by rw [h4])

theorem frame_slice_ident (t : Nat) (T8 P4 rest : List Nat)
    (h8 : T8.length = 8) (h4 : P4.length = 4) (h12 : rest.length = 12) :
    pyslice (0 :: t :: (T8 ++ (P4 ++ rest))) 14 26 = rest := by
  show pyslice ([0, t] ++ (T8 ++ (P4 ++ rest))) 14 26 = rest
  rw [← List.append_assoc [0, t] T8 (P4 ++ rest),
    ← List.append_assoc ([0, t] ++ T8) P4 rest]
  exact pyslice_append_suffix _ _ _ _ (by simp [h8, h4]) (by omega)

/-! ## Claim theorems -/

/-- Claim C1: for every valid packet tuple — kind in {1,2,3}, a 64-bit
timestamp bit pattern, a 32-bit signed pid and, when the kind is Register
(2), a valid 1-12 byte identifier — decoding the bytes produced by the
encoder reproduces the same kind, timestamp, pid and identifier, and the
decoded identifier is present iff the kind is 2; for non-Register packets
the identifier result is `none`, not an empty value. -/
theorem encode_decode_roundtrip (t ts : Nat) (pid : Int) (ident : List Nat)
    (ht : t = 1 ∨ t = 2 ∨ t = 3) (hts : ts < 2 ^ 64)
    (hlo : -2 ^ 31 ≤ pid) (hhi : pid < 2 ^ 31)
    (hid : t = 2 → validIdent ident) :
    unpack (sign_packet t ts pid ident) =
      .ok (t, pid, ts, if t = 2 then some ident else none) := by
  have hpow : (256 : Nat) ^ 8 = 2 ^ 64 := by norm_num
  have hts' : ts < 256 ^ 8 := by omega
  have hpow4 : (256 : Nat) ^ 4 = 2 ^ 32 := by norm_num
  have hu32 : toU32 pid < 256 ^ 4 := by
    have := toU32_lt pid
    omega
  rw [sign_packet_shape]
  by_cases h2 : t = 2
  · rw [if_pos h2, if_pos h2,
      unpack_frame t _ _ _ (pack_be_length 8 ts) (pack_be_length 4 _)
        (fun _ => pack12s_length ident)
        (fun _ => validUTF8_pack12s ident (hid h2).2.1 (hid h2).2.2.2.2),
      if_pos h2, unpack_be_pack_be 8 ts hts', unpack_be_pack_be 4 _ hu32,
      toS32_toU32 pid hlo hhi,
      rstripZeros_pack12s ident (hid h2).2.1 (hid h2).2.2.1]
  · rw [if_neg h2, if_neg h2, ← List.append_nil (pack_be 4 (toU32 pid)),
      unpack_frame t _ _ _ (pack_be_length 8 ts) (pack_be_length 4 _)
        (fun hh => absurd hh h2) (fun hh => absurd hh h2),
      if_neg h2, unpack_be_pack_be 8 ts hts', unpack_be_pack_be 4 _ hu32,
      toS32_toU32 pid hlo hhi]

/-- Witness for C1 at the repository's own register test vector:
kind 2, pid 1498144, identifier "1498144" and the bit pattern of the float
1677468039.1929374. -/
theorem encode_decode_roundtrip_witness :
    unpack (sign_packet 2 4744822618900420886 1498144
        [49, 52, 57, 56, 49, 52, 52]) =
      .ok (2, 1498144, 4744822618900420886,
        some [49, 52, 57, 56, 49, 52, 52]) := by
  have h := encode_decode_roundtrip 2 4744822618900420886 1498144
    [49, 52, 57, 56, 49, 52, 52] (Or.inr (Or.inl rfl)) (by decide) (by decide)
    (by decide) (fun _ => by decide)
  simpa using h

/-- Claim C2, counterexample: a 16-byte buffer (length neither 14 nor 26)
with kind byte 1 decodes successfully instead of failing; the decode
error of a 4-byte buffer propagates out of `handle_request` (whose `try`
catches only `KeyError`) instead of being logged and dropped; and so does
the `UnicodeDecodeError` of a well-sized 26-byte register frame whose
identifier field is twelve `0xff` bytes. -/
theorem decode_malformed_counterexample :
    ((0 :: 1 :: List.replicate 14 0).length = 16 ∧
      unpack (0 :: 1 :: List.replicate 14 0) = .ok (1, 0, 0, none)) ∧
    handle_request [] [0, 0, 0, 0] = .error .structError ∧
    handle_request [] (0 :: 2 :: (List.replicate 12 0 ++ List.replicate 12 255)) =
      .error .unicodeDecodeError :=
  ⟨⟨rfl, rfl⟩, rfl, rfl⟩

/-- Claim C2, amended: decoding succeeds exactly on buffers of length at
least 14 whose kind byte, when it is 2, comes with length at least 26 and
a valid-UTF-8 identifier field at offset 14; on all other buffers the
error — `IndexError`/`struct.error` for a too-short buffer,
`UnicodeDecodeError` for a register frame whose identifier field is not
valid UTF-8 — escapes `handle_request`, which catches only `KeyError`.
In particular lengths 15-25 (kind other than 2) and kind bytes outside
{1,2,3} decode fine and are dispatched (the latter silently ignored),
contrary to the original claim. -/
theorem dispatch_ok_iff (clients : Clients Nat) (data : List Nat) :
    (∃ r, handle_request clients data = .ok r) ↔
      (14 ≤ data.length ∧ (data.get? 1 = some 2 →
        26 ≤ data.length ∧ validUTF8 (pyslice data 14 26) = true)) := by
  rw [← unpack_ok_iff]
  constructor
  · rintro ⟨r, hr⟩
    unfold handle_request at hr
    cases hu : unpack data with
    | error e =>
      rw [hu] at hr
      cases hr
    | ok v => exact ⟨v, rfl⟩
  · rintro ⟨⟨t, pid, ts, ident⟩, hu⟩
    exact handle_request_ok_of_unpack clients data t pid ts ident hu

/-- Claim C3: one run of the staleness scan with window `HBT_DEF = 10` at
current time `T` notifies a pid exactly as many times as the table has
entries for that pid whose `last_heartbeat` is strictly below `T - 10`;
since the table is a dict (one entry per pid), a stale entry (for example
`last_seen = T - 11`) is notified exactly once per scan and a fresh entry
(for example `last_seen = T - 9`) is not notified. -/
theorem scan_notify_count (T : ℚ) (clients : Clients ℚ) (pid : Int) :
    (request_hook_notifies T clients).count pid =
      (clients.filter (fun p => p.1 == pid &&
        decide (p.2.last_heartbeat < T - HBT_DEF))).length := by
  induction clients with
  | nil => rfl
  | cons p rest ih =>
    obtain ⟨k, e⟩ := p
    by_cases hst : e.last_heartbeat < T - HBT_DEF
    · by_cases hk : k = pid <;>
        simp [request_hook_notifies, hst, hk, List.count_cons, ih,
          List.filter_cons]
    · simp [request_hook_notifies, hst, ih, List.filter_cons]

/-- Claim C4: in every encoded packet the kind occupies byte offset 1
(byte 0 is left at zero), the timestamp occupies the 8 bytes at offset 2
big-endian, the pid occupies the 4 bytes at offset 10 big-endian
(two's-complement), and for Register (kind 2) only, the identifier
occupies a fixed 12-byte null-padded field at offset 14; the total length
is exactly 26 bytes for Register and exactly 14 bytes otherwise
(Heartbeat and Deregister). -/
theorem packet_layout (t ts : Nat) (pid : Int) (ident : List Nat)
    (ht : t = 1 ∨ t = 2 ∨ t = 3) (hts : ts < 2 ^ 64)
    (hlo : -2 ^ 31 ≤ pid) (hhi : pid < 2 ^ 31) (hlen : ident.length ≤ 12) :
    (sign_packet t ts pid ident).length = (if t = 2 then 26 else 14) ∧
    (sign_packet t ts pid ident).get? 0 = some 0 ∧
    (sign_packet t ts pid ident).get? 1 = some t ∧
    pyslice (sign_packet t ts pid ident) 2 10 = pack_be 8 ts ∧
    unpack_be (pyslice (sign_packet t ts pid ident) 2 10) = ts ∧
    pyslice (sign_packet t ts pid ident) 10 14 = pack_be 4 (toU32 pid) ∧
    toS32 (unpack_be (pyslice (sign_packet t ts pid ident) 10 14)) = pid ∧
    (t = 2 → pyslice (sign_packet t ts pid ident) 14 26 =
      ident ++ List.replicate (12 - ident.length) 0) := by
  have hpow : (256 : Nat) ^ 8 = 2 ^ 64 := by norm_num
  have hts' : ts < 256 ^ 8 := by omega
  have hpow4 : (256 : Nat) ^ 4 = 2 ^ 32 := by norm_num
  have hu32 : toU32 pid < 256 ^ 4 := by
    have := toU32_lt pid
    omega
  rw [sign_packet_shape]
  by_cases h2 : t = 2
  · subst h2
    simp only [if_true, reduceIte]
    have e1 := frame_slice_ts 2 (pack_be 8 ts)
      (pack_be 4 (toU32 pid) ++ pack12s ident) (pack_be_length 8 ts)
    have e2 := frame_slice_pid 2 (pack_be 8 ts) (pack_be 4 (toU32 pid))
      (pack12s ident) (pack_be_length 8 ts) (pack_be_length 4 _)
    have e3 := frame_slice_ident 2 (pack_be 8 ts) (pack_be 4 (toU32 pid))
      (pack12s ident) (pack_be_length 8 ts) (pack_be_length 4 _)
      (pack12s_length ident)
    refine ⟨?_, rfl, rfl, e1, ?_, e2, ?_, fun _ => ?_⟩
    · simp [pack_be_length, pack12s_length]
    · rw [e1, unpack_be_pack_be 8 ts hts']
    · rw [e2, unpack_be_pack_be 4 _ hu32, toS32_toU32 pid hlo hhi]
    · rw [e3]
      simp [pack12s, List.take_of_length_le hlen]
  · simp only [if_neg h2]
    rw [← List.append_nil (pack_be 4 (toU32 pid))]
    have e1 := frame_slice_ts t (pack_be 8 ts)
      (pack_be 4 (toU32 pid) ++ []) (pack_be_length 8 ts)
    have e2 := frame_slice_pid t (pack_be 8 ts) (pack_be 4 (toU32 pid))
      [] (pack_be_length 8 ts) (pack_be_length 4 _)
    refine ⟨?_, rfl, rfl, e1, ?_, e2, ?_, fun hh => absurd hh h2⟩
    · simp [pack_be_length]
    · rw [e1, unpack_be_pack_be 8 ts hts']
    · rw [e2, unpack_be_pack_be 4 _ hu32, toS32_toU32 pid hlo hhi]

/-- Witness for C4 at a concrete Register packet and at the layout claims
it makes. -/
theorem packet_layout_witness :
    (sign_packet 2 4744822618900420886 1498144
        [49, 52, 57, 56, 49, 52, 52]).length = (if 2 = 2 then 26 else 14) ∧
    (sign_packet 2 4744822618900420886 1498144
        [49, 52, 57, 56, 49, 52, 52]).get? 0 = some 0 ∧
    (sign_packet 2 4744822618900420886 1498144
        [49, 52, 57, 56, 49, 52, 52]).get? 1 = some 2 ∧
    pyslice (sign_packet 2 4744822618900420886 1498144
        [49, 52, 57, 56, 49, 52, 52]) 2 10 = pack_be 8 4744822618900420886 ∧
    unpack_be (pyslice (sign_packet 2 4744822618900420886 1498144
        [49, 52, 57, 56, 49, 52, 52]) 2 10) = 4744822618900420886 ∧
    pyslice (sign_packet 2 4744822618900420886 1498144
        [49, 52, 57, 56, 49, 52, 52]) 10 14 = pack_be 4 (toU32 1498144) ∧
    toS32 (unpack_be (pyslice (sign_packet 2 4744822618900420886 1498144
        [49, 52, 57, 56, 49, 52, 52]) 10 14)) = 1498144 ∧
    ((2 : Nat) = 2 → pyslice (sign_packet 2 4744822618900420886 1498144
        [49, 52, 57, 56, 49, 52, 52]) 14 26 =
      [49, 52, 57, 56, 49, 52, 52] ++ List.replicate (12 - 7) 0) := by
  have h := packet_layout 2 4744822618900420886 1498144
    [49, 52, 57, 56, 49, 52, 52] (Or.inr (Or.inl rfl)) (by decide) (by decide)
    (by decide) (by decide)
  simpa using h

/-- Claim C5, counterexample: the identifier made of seven two-byte UTF-8
characters (七 times "é", bytes 195 169) has a 14-byte UTF-8 encoding, yet
client construction accepts it (the check counts characters, not UTF-8
bytes) and the encoder silently truncates its field to the first 12 bytes;
and an empty identifier is silently replaced by the stringified pid
instead of failing. -/
theorem identifier_validation_counterexample :
    (init_id (some (List.replicate 7 [195, 169])) 1 =
      .ok (List.replicate 7 [195, 169])) ∧
    (utf8Bytes (List.replicate 7 [195, 169])).length = 14 ∧
    pack12s (utf8Bytes (List.replicate 7 [195, 169])) =
      (utf8Bytes (List.replicate 7 [195, 169])).take 12 ∧
    (utf8Bytes (List.replicate 7 [195, 169])).take 12 ≠
      utf8Bytes (List.replicate 7 [195, 169]) ∧
    init_id (some []) 5 = .ok (decimalId 5) := by
  refine ⟨rfl, rfl, rfl, by decide, rfl⟩

/-- Claim C5, amended: an identifier whose UTF-8 encoding is at most 12
bytes is accepted at construction and encoded into the 12-byte field
without truncation; an identifier of more than 12 characters is rejected
with a `ValueError` at construction; but the check counts characters (an
identifier of at most 12 characters whose UTF-8 encoding exceeds 12 bytes
is accepted and silently truncated — see the counterexample), and an
empty identifier is replaced by the stringified pid, not rejected. -/
theorem identifier_validation_amended (ident : Ident) (pid : Int)
    (hch : ∀ c ∈ ident, c ≠ []) (hne : ident ≠ []) :
    ((utf8Bytes ident).length ≤ 12 →
      init_id (some ident) pid = .ok ident ∧
      pack12s (utf8Bytes ident) =
        utf8Bytes ident ++ List.replicate (12 - (utf8Bytes ident).length) 0) ∧
    (12 < ident.length → init_id (some ident) pid = .error .valueError) := by
  have hemp : ident.isEmpty = false := by
    cases ident with
    | nil => exact absurd rfl hne
    | cons c cs => rfl
  constructor
  · intro hb
    have hchar : ident.length ≤ (utf8Bytes ident).length :=
      length_le_flatten ident hch
    constructor
    · unfold init_id validate_id
      dsimp only
      rw [hemp]
      simp only [Bool.false_eq_true, if_false, reduceIte]
      rw [if_pos (by omega : ident.length ≤ 12)]
    · unfold pack12s
      rw [List.take_of_length_le hb]
  · intro h12
    unfold init_id validate_id
    dsimp only
    rw [hemp]
    simp only [Bool.false_eq_true, if_false, reduceIte]
    rw [if_neg (by omega : ¬ident.length ≤ 12)]

/-- Witness for C5's amended theorem at the single-character identifier
"a". -/
theorem identifier_validation_amended_witness :
    ((utf8Bytes [[97]]).length ≤ 12 →
      init_id (some [[97]]) 0 = .ok [[97]] ∧
      pack12s (utf8Bytes [[97]]) =
        utf8Bytes [[97]] ++ List.replicate (12 - (utf8Bytes [[97]]).length) 0) ∧
    (12 < ([[97]] : Ident).length →
      init_id (some [[97]]) 0 = .error .valueError) :=
  identifier_validation_amended [[97]] 0 (by decide) (by decide)

/-- Claim C6: dispatching a Deregister packet (kind 3) for a pid present
in the table removes exactly that entry (the pid is gone, every other
entry is untouched); for an absent pid the `KeyError` raised by
`_deregister` is caught at the dispatch boundary, which logs it and leaves
the table completely unchanged, letting no error escape. -/
theorem deregister_dispatch (clients : Clients Nat) (data : List Nat)
    (pid : Int) (ts : Nat) (ident : Option (List Nat))
    (hnd : keysNodup clients)
    (h : unpack data = .ok (3, pid, ts, ident)) :
    (dictGet pid clients = none → handle_request clients data = .ok clients) ∧
    (∀ e, dictGet pid clients = some e →
      ∃ clients', handle_request clients data = .ok clients' ∧
        dictGet pid clients' = none ∧
        ∀ q, q ≠ pid → dictGet q clients' = dictGet q clients) := by
  unfold handle_request
  rw [h]
  dsimp only
  constructor
  · intro h0
    unfold deregister_op
    rw [h0]
    rfl
  · intro e he
    unfold deregister_op
    rw [he]
    exact ⟨dictDel pid clients, rfl, dictGet_dictDel_self pid clients hnd,
      fun q hq => dictGet_dictDel_ne pid q clients hq⟩

/-- Witness for C6: deregistering pid 5, the only table entry. -/
theorem deregister_dispatch_witness :
    ∃ clients', handle_request [((5 : Int), (⟨none, 7⟩ : Entry Nat))]
        (sign_packet 3 999 5 []) = .ok clients' ∧
      dictGet 5 clients' = none ∧
      ∀ q, q ≠ (5 : Int) → dictGet q clients' =
        dictGet q [((5 : Int), (⟨none, 7⟩ : Entry Nat))] :=
  (deregister_dispatch [((5 : Int), (⟨none, 7⟩ : Entry Nat))]
      (sign_packet 3 999 5 []) 5 999 none (by decide) (by rfl)).2
    ⟨none, 7⟩ (by rfl)

/-- Claim C7: dispatching a Register packet (kind 2) sets the entry for
the packet's pid to exactly the packet's identifier and the packet's
timestamp, unconditionally overwriting whatever was stored before — the
statement quantifies over every prior table state. -/
theorem register_overwrites (clients : Clients Nat) (data : List Nat)
    (pid : Int) (ts : Nat) (ident : Option (List Nat))
    (h : unpack data = .ok (2, pid, ts, ident)) :
    ∃ clients', handle_request clients data = .ok clients' ∧
      dictGet pid clients' = some ⟨ident, ts⟩ := by
  unfold handle_request
  rw [h]
  dsimp only
  exact ⟨register_op clients pid ts ident, rfl,
    dictGet_dictSet_self pid _ clients⟩

/-- Witness for C7: a Register for pid 9 overwrites the existing entry
(identifier byte string "x", timestamp 1) with the packet's identifier
"a" and timestamp 555. -/
theorem register_overwrites_witness :
    ∃ clients', handle_request [((9 : Int), (⟨some [120], 1⟩ : Entry Nat))]
        (sign_packet 2 555 9 [97]) = .ok clients' ∧
      dictGet 9 clients' = some ⟨some [97], 555⟩ :=
  register_overwrites [((9 : Int), (⟨some [120], 1⟩ : Entry Nat))]
    (sign_packet 2 555 9 [97]) 9 555 (some [97]) (by rfl)

/-- Claim C8: dispatching a Heartbeat packet (kind 1) for an unseen pid
creates an entry whose `last_heartbeat` is the packet's timestamp and
whose identifier is the absent value `none` (heartbeat packets carry no
identifier); for a pid already present it sets that entry's
`last_heartbeat` to the packet's timestamp, keeping the stored
identifier. -/
theorem heartbeat_upsert (clients : Clients Nat) (data : List Nat)
    (pid : Int) (ts : Nat) (ident : Option (List Nat))
    (h : unpack data = .ok (1, pid, ts, ident)) :
    ∃ clients', handle_request clients data = .ok clients' ∧
      (dictGet pid clients = none → dictGet pid clients' = some ⟨none, ts⟩) ∧
      (∀ e, dictGet pid clients = some e →
        dictGet pid clients' = some ⟨e.process_name, ts⟩) := by
  have hid : ident = none :=
    unpack_ident_none data 1 pid ts ident h (by decide)
  subst hid
  unfold handle_request
  rw [h]
  dsimp only
  refine ⟨heartbeat_op clients pid ts none, rfl, ?_, ?_⟩
  · intro h0
    unfold heartbeat_op
    rw [h0]
    exact dictGet_dictSet_self pid _ clients
  · intro e he
    unfold heartbeat_op
    rw [he]
    exact dictGet_dictSet_self pid _ clients

/-- Witness for C8: a Heartbeat for the unseen pid 4 on the empty table.
-/
theorem heartbeat_upsert_witness :
    ∃ clients', handle_request ([] : Clients Nat)
        (sign_packet 1 777 4 []) = .ok clients' ∧
      (dictGet 4 ([] : Clients Nat) = none →
        dictGet 4 clients' = some ⟨none, 777⟩) ∧
      (∀ e, dictGet 4 ([] : Clients Nat) = some e →
        dictGet 4 clients' = some ⟨e.process_name, 777⟩) :=
  heartbeat_upsert [] (sign_packet 1 777 4 []) 4 777 none (by rfl)

/-- Claim C9 (the code bug, evaluated at a failing configuration): a
client constructed with rate 7 still sleeps `FREQ_DEF = 5` seconds between
consecutive heartbeats, because `run` calls `time.sleep(FREQ_DEF)` instead
of `time.sleep(self.rate)`; the configured rate never appears as a sleep
duration.  (The Register-before-first-Heartbeat part of the claim does
hold, as the trace shows.) -/
theorem run_sleep_ignores_rate :
    run_events true 7 2 =
      [ClientEvent.send 2, ClientEvent.send 1, ClientEvent.sleep 5,
        ClientEvent.send 1, ClientEvent.sleep 5] ∧
    ClientEvent.sleep 7 ∉ run_events true 7 2 := by
  constructor
  · rfl
  · decide

/-- Claim C10 (frame property): dispatching any successfully decoded
packet carrying pid `p` changes at most the table entry for `p`: the
lookup of every other pid is identical before and after (same existence,
same identifier, same timestamp). -/
theorem dispatch_frame (clients : Clients Nat) (data : List Nat) (t : Nat)
    (pid : Int) (ts : Nat) (ident : Option (List Nat))
    (h : unpack data = .ok (t, pid, ts, ident)) :
    ∃ clients', handle_request clients data = .ok clients' ∧
      ∀ q, q ≠ pid → dictGet q clients' = dictGet q clients := by
  unfold handle_request
  rw [h]
  dsimp only
  by_cases h1 : t = 1
  · rw [if_pos h1]
    refine ⟨_, rfl, fun q hq => ?_⟩
    unfold heartbeat_op
    cases dictGet pid clients <;>
      exact dictGet_dictSet_ne pid q _ clients hq
  · rw [if_neg h1]
    by_cases h2 : t = 2
    · rw [if_pos h2]
      exact ⟨_, rfl, fun q hq => dictGet_dictSet_ne pid q _ clients hq⟩
    · rw [if_neg h2]
      by_cases h3 : t = 3
      · rw [if_pos h3]
        unfold deregister_op
        cases dictGet pid clients with
        | none => exact ⟨clients, rfl, fun q hq => rfl⟩
        | some e =>
          exact ⟨dictDel pid clients, rfl,
            fun q hq => dictGet_dictDel_ne pid q clients hq⟩
      · rw [if_neg h3]
        exact ⟨clients, rfl, fun q hq => rfl⟩

/-- Witness for C10: a Heartbeat for pid 2 leaves the entry for pid 1
untouched. -/
theorem dispatch_frame_witness :
    ∃ clients', handle_request [((1 : Int), (⟨none, 5⟩ : Entry Nat))]
        (sign_packet 1 888 2 []) = .ok clients' ∧
      ∀ q, q ≠ (2 : Int) → dictGet q clients' =
        dictGet q [((1 : Int), (⟨none, 5⟩ : Entry Nat))] :=
  dispatch_frame [((1 : Int), (⟨none, 5⟩ : Entry Nat))]
    (sign_packet 1 888 2 []) 1 2 888 none (by rfl)

end Cardiac
